import Mathlib

/-!
Verification development for the quantity-and-dimension engine of the
errorpro data-analysis package.  The Python functions of
src/errorpro/core.py (assign, the dimension-checking stage of fit, the
result-saving stage of fit, and the dependency unpacker
_find_all_dependencies) are embedded shallowly below.  Numeric scalars
(numpy floats) are modelled as rationals, numpy arrays as a shape plus a
flat data list, sympy expressions as an inductive expression tree, and
the Python heap as an explicit store of quantities that is threaded
through the functions which the source mutates (fit) or only reads
(assign).  The collaborator modules errorpro.units, errorpro.quantities
and errorpro.dimensions are not part of the sources; their interfaces
are modelled from the specification and marked as such.
-/

/-- Modelled from the spec (errorpro.dimensions.dimensions is not among
the sources): a Dimension is an exponent vector over a fixed set of base
physical dimensions, here length, mass and time with rational exponents.
Equality is exact structural equality of the exponents. -/
structure Dimension where
  length : Rat
  mass : Rat
  time : Rat
deriving DecidableEq, Repr

/-- The dimensionless Dimension, the group identity; Python Dimension(). -/
def Dimension.one : Dimension := ⟨0, 0, 0⟩

/-- Dimension multiplication: pointwise exponent addition. -/
def Dimension.mul (a b : Dimension) : Dimension :=
  ⟨a.length + b.length, a.mass + b.mass, a.time + b.time⟩

/-- Dimension division: pointwise exponent subtraction. -/
def Dimension.div (a b : Dimension) : Dimension :=
  ⟨a.length - b.length, a.mass - b.mass, a.time - b.time⟩

/-- Dimension power: scalar multiplication of all exponents. -/
def Dimension.pow (a : Dimension) (q : Rat) : Dimension :=
  ⟨q * a.length, q * a.mass, q * a.time⟩

/-- A numpy ndarray, modelled as a shape together with the flat data in
row-major order; a scalar (0-dimensional) array has shape []. -/
structure NDArray where
  shape : List Nat
  data : List Rat
deriving DecidableEq, Repr

/-- A scalar ndarray holding one rational. -/
def NDArray.scalar (x : Rat) : NDArray := ⟨[], [x]⟩

/-- The single entry of a scalar ndarray. -/
def NDArray.scalarVal (a : NDArray) : Rat := a.data.headD 0

/-- Elementwise multiplication by a scalar, as in numpy
float(factor) * array. -/
def NDArray.smul (c : Rat) (a : NDArray) : NDArray :=
  ⟨a.shape, a.data.map (fun x => c * x)⟩

/-- Wellformedness of an ndarray: the flat data has exactly as many
entries as the shape prescribes. -/
def NDArray.wf (a : NDArray) : Prop := a.data.length = a.shape.prod

/-- Cyclic filling used by numpy resize: walk through cur, restarting
from l when cur runs out, until n entries are produced. -/
def takeCycAux : List Rat → List Rat → Nat → List Rat
  | _, _, 0 => []
  | l, [], n + 1 =>
    match l with
    | [] => []
    | c :: cs => c :: takeCycAux l cs n
  | l, c :: cs, n + 1 => c :: takeCycAux l cs n

/-- The first n entries of the infinite cyclic repetition of l. -/
def takeCyc (l : List Rat) (n : Nat) : List Rat := takeCycAux l l n

/-- numpy resize: the data is repeated cyclically (row-major) to fill
the new shape. -/
def NDArray.resize (a : NDArray) (s : List Nat) : NDArray :=
  ⟨s, takeCyc a.data s.prod⟩

/-- The trailing k entries of a shape tuple: Python shape[-k:]. -/
def trailingShape (s : List Nat) (k : Nat) : List Nat :=
  s.drop (s.length - k)

/-- Modelled from the spec (the Formula Engine of errorpro.quantities is
not among the sources): a symbolic expression over quantities, as a
tagged expression tree with literals, quantity references, references to
the dedicated error-of symbol of a quantity, arithmetic nodes, integer
powers and square roots. -/
inductive Expr where
  | lit (c : Rat)
  | qref (i : Nat)
  | errref (i : Nat)
  | add (a b : Expr)
  | sub (a b : Expr)
  | mul (a b : Expr)
  | div (a b : Expr)
  | pow (a : Expr) (n : Int)
  | sqrt (a : Expr)
deriving DecidableEq, Repr

/-- All quantity references occurring in an expression, with
multiplicity, in left-to-right order. -/
def Expr.qrefs : Expr → List Nat
  | .lit _ => []
  | .qref i => [i]
  | .errref _ => []
  | .add a b => a.qrefs ++ b.qrefs
  | .sub a b => a.qrefs ++ b.qrefs
  | .mul a b => a.qrefs ++ b.qrefs
  | .div a b => a.qrefs ++ b.qrefs
  | .pow a _ => a.qrefs
  | .sqrt a => a.qrefs

/-- All error-of symbol references occurring in an expression. -/
def Expr.errrefs : Expr → List Nat
  | .lit _ => []
  | .qref _ => []
  | .errref i => [i]
  | .add a b => a.errrefs ++ b.errrefs
  | .sub a b => a.errrefs ++ b.errrefs
  | .mul a b => a.errrefs ++ b.errrefs
  | .div a b => a.errrefs ++ b.errrefs
  | .pow a _ => a.errrefs
  | .sqrt a => a.errrefs

/-- The distinct quantities an expression depends on (sympy
free_symbols, a set; here deduplicated keeping first occurrences). -/
def Expr.freeSymbols (e : Expr) : List Nat := e.qrefs.dedup

/-- sympy is_number: the expression contains no free symbols. -/
def Expr.isNumber (e : Expr) : Bool :=
  e.qrefs.isEmpty && e.errrefs.isEmpty

/-- sympy subs of a quantity symbol by an expression. -/
def Expr.subs (e : Expr) (i : Nat) (r : Expr) : Expr :=
  match e with
  | .lit c => .lit c
  | .qref j => if j = i then r else .qref j
  | .errref j => .errref j
  | .add a b => .add (a.subs i r) (b.subs i r)
  | .sub a b => .sub (a.subs i r) (b.subs i r)
  | .mul a b => .mul (a.subs i r) (b.subs i r)
  | .div a b => .div (a.subs i r) (b.subs i r)
  | .pow a n => .pow (a.subs i r) n
  | .sqrt a => .sqrt (a.subs i r)

/-- Modelled from the spec: the exact symbolic partial derivative of an
expression with respect to the quantity symbol i. -/
def Expr.diff (e : Expr) (i : Nat) : Expr :=
  match e with
  | .lit _ => .lit 0
  | .qref j => if j = i then .lit 1 else .lit 0
  | .errref _ => .lit 0
  | .add a b => .add (a.diff i) (b.diff i)
  | .sub a b => .sub (a.diff i) (b.diff i)
  | .mul a b => .add (.mul (a.diff i) b) (.mul a (b.diff i))
  | .div a b => .div (.sub (.mul (a.diff i) b) (.mul a (b.diff i))) (.mul b b)
  | .pow a n => .mul (.mul (.lit n) (.pow a (n - 1))) (a.diff i)
  | .sqrt a => .div (a.diff i) (.mul (.lit 2) (.sqrt a))

/-- Numeric evaluation of a closed expression (one with no free
symbols), modelling numpy float conversion of a sympy number. -/
def Expr.evalClosed : Expr → Rat
  | .lit c => c
  | .qref _ => 0
  | .errref _ => 0
  | .add a b => a.evalClosed + b.evalClosed
  | .sub a b => a.evalClosed - b.evalClosed
  | .mul a b => a.evalClosed * b.evalClosed
  | .div a b => a.evalClosed / b.evalClosed
  | .pow a n => a.evalClosed ^ n
  | .sqrt a => Rat.sqrt a.evalClosed

/-- The formula slot of a quantity: in the dynamically typed source it
holds a sympy expression, the plain string set by curve fitting, or
None. -/
inductive FormulaVal where
  | none
  | expr (e : Expr)
  | str (s : String)
deriving DecidableEq, Repr

/-- Whether a formula slot holds a plain string. -/
def FormulaVal.isStr : FormulaVal → Bool
  | .str _ => true
  | _ => false

/-- The Quantity record, from the data model: name, optional long name,
value and error arrays, their formulas, dimension and preferred display
unit.  The canonical unit expressions returned by the unit resolver are
modelled as strings. -/
structure Quantity where
  name : String
  longname : Option String
  value : Option NDArray
  value_formula : FormulaVal
  error : Option NDArray
  error_formula : FormulaVal
  dim : Dimension
  prefer_unit : Option String
deriving DecidableEq, Repr

/-- The heap of quantity objects, indexed by position; expression leaves
refer to quantities by index. -/
abbrev Store := List Quantity

/-- Failure conditions surfaced to the caller (Python RuntimeError and
friends), carrying the conflicting dimensions or shapes they name. -/
inductive Err where
  | dimMismatch (a b : Dimension)
  | shapeMismatch (a b : List Nat)
  | missingValue (i : Nat)
  | keyError (s : String)
  | fitParamsUnsolved
deriving DecidableEq, Repr

/-- Lookup of a quantity object in the store. -/
def getQ (st : Store) (i : Nat) : Except Err Quantity :=
  match st.get? i with
  | some q => .ok q
  | none => .error (.missingValue i)

/-- Binary elementwise arithmetic with broadcasting modelled from the
spec: equal shapes combine pointwise, a scalar broadcasts against any
shape, and any other combination is a shape-mismatch failure. -/
def arith2 (f : Rat → Rat → Rat) (a b : NDArray) : Except Err NDArray :=
  if a.shape = b.shape then .ok ⟨a.shape, List.zipWith f a.data b.data⟩
  else if a.shape = [] then .ok ⟨b.shape, b.data.map (fun y => f a.scalarVal y)⟩
  else if b.shape = [] then .ok ⟨a.shape, a.data.map (fun x => f x b.scalarVal)⟩
  else .error (.shapeMismatch a.shape b.shape)

/-- Unary elementwise arithmetic. -/
def mapArr (f : Rat → Rat) (a : NDArray) : NDArray :=
  ⟨a.shape, a.data.map f⟩

/-- Modelled from the spec (errorpro.quantities.get_value is not among
the sources): numeric evaluation of an expression, substituting each
quantity symbol by its stored value and each error-of symbol by the
stored error of its quantity, or zero when that quantity has no error
(quantities with no error contribute zero). -/
def get_value (st : Store) : Expr → Except Err NDArray
  | .lit c => .ok (NDArray.scalar c)
  | .qref i =>
    match getQ st i with
    | .error e => .error e
    | .ok q =>
      match q.value with
      | some v => .ok v
      | none => .error (.missingValue i)
  | .errref i =>
    match getQ st i with
    | .error e => .error e
    | .ok q =>
      match q.error with
      | some er => .ok er
      | none => .ok (NDArray.scalar 0)
  | .add a b =>
    match get_value st a, get_value st b with
    | .ok x, .ok y => arith2 (fun u v => u + v) x y
    | .error e, _ => .error e
    | _, .error e => .error e
  | .sub a b =>
    match get_value st a, get_value st b with
    | .ok x, .ok y => arith2 (fun u v => u - v) x y
    | .error e, _ => .error e
    | _, .error e => .error e
  | .mul a b =>
    match get_value st a, get_value st b with
    | .ok x, .ok y => arith2 (fun u v => u * v) x y
    | .error e, _ => .error e
    | _, .error e => .error e
  | .div a b =>
    match get_value st a, get_value st b with
    | .ok x, .ok y => arith2 (fun u v => u / v) x y
    | .error e, _ => .error e
    | _, .error e => .error e
  | .pow a n =>
    match get_value st a with
    | .ok x => .ok (mapArr (fun u => u ^ n) x)
    | .error e => .error e
  | .sqrt a =>
    match get_value st a with
    | .ok x => .ok (mapArr Rat.sqrt x)
    | .error e => .error e

/-- Modelled from the spec (errorpro.quantities.get_dimension is not
among the sources): dimension evaluation structurally mirrors value
evaluation in the Dimension algebra; addition and subtraction require
equal operand dimensions, a failure names both. -/
def get_dimension (st : Store) : Expr → Except Err Dimension
  | .lit _ => .ok Dimension.one
  | .qref i =>
    match getQ st i with
    | .error e => .error e
    | .ok q => .ok q.dim
  | .errref i =>
    match getQ st i with
    | .error e => .error e
    | .ok q => .ok q.dim
  | .add a b =>
    match get_dimension st a, get_dimension st b with
    | .ok da, .ok db => if da = db then .ok da else .error (.dimMismatch da db)
    | .error e, _ => .error e
    | _, .error e => .error e
  | .sub a b =>
    match get_dimension st a, get_dimension st b with
    | .ok da, .ok db => if da = db then .ok da else .error (.dimMismatch da db)
    | .error e, _ => .error e
    | _, .error e => .error e
  | .mul a b =>
    match get_dimension st a, get_dimension st b with
    | .ok da, .ok db => .ok (da.mul db)
    | .error e, _ => .error e
    | _, .error e => .error e
  | .div a b =>
    match get_dimension st a, get_dimension st b with
    | .ok da, .ok db => .ok (da.div db)
    | .error e, _ => .error e
    | _, .error e => .error e
  | .pow a n =>
    match get_dimension st a with
    | .ok da => .ok (da.pow (n : Rat))
    | .error e => .error e
  | .sqrt a =>
    match get_dimension st a with
    | .ok da => .ok (da.pow (1 / 2 : Rat))
    | .error e => .error e

/-- The symbolic first-order Gaussian error formula of an expression,
modelled from the spec: the square root of the sum over the distinct
free symbols of (partial derivative times the error-of symbol) squared. -/
def errorFormulaOf (e : Expr) : Expr :=
  Expr.sqrt
    ((e.freeSymbols.map
        (fun i => Expr.pow (Expr.mul (e.diff i) (Expr.errref i)) 2)).foldr
      Expr.add (Expr.lit 0))

/-- Modelled from the spec (errorpro.quantities.get_error is not among
the sources): first-order error propagation, returning the numeric
propagated error and the retained symbolic error formula. -/
def get_error (st : Store) (e : Expr) : Except Err (NDArray × Expr) :=
  match get_value st (errorFormulaOf e) with
  | .ok v => .ok (v, errorFormulaOf e)
  | .error er => .error er

/-- The six quantities produced by the unit-parsing block of assign
(core.py lines 35 through 61): scale factor, dimension and canonical
unit expression for the value and for the error. -/
structure UnitInfo where
  value_factor : Rat
  value_dim : Dimension
  value_unit : Option String
  error_factor : Rat
  error_dim : Dimension
  error_unit : Option String
deriving DecidableEq, Repr

/-- The unit resolver interface (parse_unit of errorpro.units, an
external collaborator consumed as a black box): a unit expression maps
to (scale factor, Dimension, canonical unit expression). -/
abbrev UnitResolver := String → Rat × Dimension × String

/-- The unit-parsing block of assign, core.py lines 43 through 61: a
combined unit is resolved once and applied to both value and error;
otherwise the value unit and the error unit are resolved separately and,
when both are present, must agree in dimension. -/
def parse_units (pu : UnitResolver)
    (unit value_unit error_unit : Option String) : Except Err UnitInfo :=
  match unit with
  | some u =>
    let r := pu u
    .ok ⟨r.1, r.2.1, some r.2.2, r.1, r.2.1, some r.2.2⟩
  | none =>
    match value_unit, error_unit with
    | none, none => .ok ⟨1, Dimension.one, none, 1, Dimension.one, none⟩
    | some vu, none =>
      let r := pu vu
      .ok ⟨r.1, r.2.1, some r.2.2, 1, Dimension.one, none⟩
    | none, some eu =>
      let r := pu eu
      .ok ⟨1, Dimension.one, none, r.1, r.2.1, some r.2.2⟩
    | some vu, some eu =>
      let rv := pu vu
      let re := pu eu
      if rv.2.1 = re.2.1 then
        .ok ⟨rv.1, rv.2.1, some rv.2.2, re.1, re.2.1, some re.2.2⟩
      else .error (.dimMismatch rv.2.1 re.2.1)

/-- The value argument of assign after the dynamic dispatch of the
source: either a number or numeric array, or a sympy expression. -/
inductive AssignValue where
  | num (a : NDArray)
  | expr (e : Expr)
deriving DecidableEq, Repr

/-- The value-processing block of assign, core.py lines 63 through 84:
a non-literal symbolic expression is evaluated through the formula
engine; with ignore_dim the result is rescaled by the declared factor
and the declared dimension kept, otherwise the computed dimension is
taken when no value unit was given and checked against the declared one
when it was.  A literal is scaled by the value factor.  Returns the
value array, the retained value formula and the dimension. -/
def process_value (st : Store) (value : AssignValue) (ui : UnitInfo)
    (ignore_dim : Bool) : Except Err (NDArray × Option Expr × Dimension) :=
  match value with
  | .expr e =>
    if e.isNumber then
      .ok (NDArray.smul ui.value_factor (NDArray.scalar e.evalClosed),
           none, ui.value_dim)
    else
      match get_value st e with
      | .error er => .error er
      | .ok v =>
        if ignore_dim then
          .ok (NDArray.smul ui.value_factor v, some e, ui.value_dim)
        else
          match get_dimension st e with
          | .error er => .error er
          | .ok cd =>
            if ui.value_unit = none then
              .ok (v, some e, cd)
            else
              if cd = ui.value_dim then .ok (v, some e, ui.value_dim)
              else .error (.dimMismatch ui.value_dim cd)
  | .num a => .ok (NDArray.smul ui.value_factor a, none, ui.value_dim)

/-- The error-processing block of assign, core.py lines 86 through 105:
an explicit error is scaled by the error factor and broadcast against
the value shape by cyclic duplication when it is scalar or matches a
trailing sub-shape, else a shape mismatch names both shapes; with no
explicit error but a value formula, the error is propagated through the
formula engine and, under ignore_dim, rescaled by the error factor. -/
def process_error (st : Store) (error : Option NDArray) (v : NDArray)
    (vf : Option Expr) (ui : UnitInfo) (ignore_dim : Bool) :
    Except Err (Option NDArray × FormulaVal) :=
  match error with
  | some er0 =>
    let er := NDArray.smul ui.error_factor er0
    if er.shape = [] ∨ trailingShape v.shape er.shape.length = er.shape then
      .ok (some (er.resize v.shape), FormulaVal.none)
    else
      .error (.shapeMismatch v.shape er.shape)
  | none =>
    match vf with
    | some f =>
      match get_error st f with
      | .error er => .error er
      | .ok r =>
        .ok (some (if ignore_dim then NDArray.smul ui.error_factor r.1 else r.1),
             FormulaVal.expr r.2)
    | none => .ok (none, FormulaVal.none)

/-- The quantity-building block of assign, core.py lines 107 through
116: the fields are filled from the processed value and error, and
prefer_unit is the canonical value unit when one was given, else the
canonical error unit.  Modelled from the spec: the Quantity constructor
of errorpro.quantities gives a dummy name when none is supplied. -/
def mkQuantity (name longname : Option String)
    (pv : NDArray × Option Expr × Dimension)
    (pe : Option NDArray × FormulaVal) (ui : UnitInfo) : Quantity :=
  { name := name.getD "dummy",
    longname := longname,
    value := some pv.1,
    value_formula :=
      match pv.2.1 with
      | some e => FormulaVal.expr e
      | none => FormulaVal.none,
    error := pe.1,
    error_formula := pe.2,
    dim := pv.2.2,
    prefer_unit := if ui.value_unit.isSome then ui.value_unit else ui.error_unit }

/-- The result of assign, core.py lines 14 through 118, as the
composition of its four blocks. -/
def assignE (pu : UnitResolver) (st : Store) (value : AssignValue)
    (error : Option NDArray) (unit : Option String)
    (name longname : Option String) (value_unit error_unit : Option String)
    (ignore_dim : Bool) : Except Err Quantity :=
  match parse_units pu unit value_unit error_unit with
  | .error er => .error er
  | .ok ui =>
    match process_value st value ui ignore_dim with
    | .error er => .error er
    | .ok pv =>
      match process_error st error pv.1 pv.2.1 ui ignore_dim with
      | .error er => .error er
      | .ok pe => .ok (mkQuantity name longname pv pe ui)

/-- assign with the Python heap made explicit: the source only reads the
store (it contains no assignment to any existing quantity), so the
returned store is the input store. -/
def assign (pu : UnitResolver) (st : Store) (value : AssignValue)
    (error : Option NDArray) (unit : Option String)
    (name longname : Option String) (value_unit error_unit : Option String)
    (ignore_dim : Bool) : Except Err Quantity × Store :=
  (assignE pu st value error unit name longname value_unit error_unit ignore_dim,
   st)

/-- The interface of the dimension solver dim_solve of
errorpro.dimensions.solvers (a collaborator not among the sources):
given the formula, the required output dimension and the known
dimensions by quantity name, it either fails or returns a dimension
assignment by quantity name. -/
abbrev DimSolver :=
  Expr → Dimension → List (String × Dimension) → Except Err (List (String × Dimension))

/-- The known-dimension table built by fit, core.py lines 251 through
254: the name and dimension of every free symbol of the fit function
that is not a fit parameter. -/
def buildKnownDims (st : Store) (fs : List Nat) (params : List Nat) :
    List (String × Dimension) :=
  fs.filterMap (fun i =>
    if params.contains i then none
    else (st.get? i).map (fun q => (q.name, q.dim)))

/-- The store update of fit, core.py lines 256 through 260: every free
symbol of the fit function whose solved dimension differs from its
current one is assigned the solved dimension and has its prefer_unit
cleared; a name missing from the solved table is a lookup failure. -/
def applySolvedDims (st : Store) (fs : List Nat)
    (solved : List (String × Dimension)) : Except Err Store :=
  match fs with
  | [] => .ok st
  | i :: rest =>
    match st.get? i with
    | none => applySolvedDims st rest solved
    | some q =>
      match solved.lookup q.name with
      | none => .error (.keyError q.name)
      | some d =>
        if q.dim = d then applySolvedDims st rest solved
        else
          applySolvedDims
            (st.set i { q with dim := d, prefer_unit := none }) rest solved

/-- The dimension-checking stage of fit, core.py lines 241 through 266,
instrumented with the number of dimension-solver invocations: when
dimension checking is enabled and the function dimension (None if its
computation raised) differs from the ydata dimension, the solver runs
once, the solved dimensions are written back, and the function dimension
is recomputed and must now equal the ydata dimension or the stage fails. -/
def fit_dim_check (solver : DimSolver) (st : Store) (func : Expr)
    (ydim : Dimension) (params : List Nat) (ignore_dim : Bool) :
    Except Err Store × Nat :=
  if ignore_dim then (.ok st, 0)
  else
    let fd := (get_dimension st func).toOption
    if fd = some ydim then (.ok st, 0)
    else
      let fs := func.freeSymbols
      match solver func ydim (buildKnownDims st fs params) with
      | .error e => (.error e, 1)
      | .ok solved =>
        match applySolvedDims st fs solved with
        | .error e => (.error e, 1)
        | .ok st2 =>
          match get_dimension st2 func with
          | .error e => (.error e, 1)
          | .ok fd2 =>
            if fd2 = ydim then (.ok st2, 1)
            else (.error .fitParamsUnsolved, 1)

/-- The result-saving stage of fit, core.py lines 271 through 276: each
parameter quantity receives the fitted value and error, and both its
value_formula and its error_formula are set to the plain string fit. -/
def fit_save_results (st : Store) (params : List Nat)
    (values errors : List NDArray) : Store :=
  match params, values, errors with
  | i :: ps, v :: vs, er :: es =>
    (match st.get? i with
     | none => fit_save_results st ps vs es
     | some q =>
       fit_save_results
         (st.set i { q with value := some v,
                            value_formula := FormulaVal.str "fit",
                            error := some er,
                            error_formula := FormulaVal.str "fit" })
         ps vs es)
  | _, _, _ => st

/-- The loop of _find_all_dependencies over the free symbols of the
current expression, core.py lines 436 through 441, parametrised by the
recursive call on a sub-formula.  Each symbol that is not yet on the
ignore list and has an expression-valued value formula is appended to
the ignore list (the source mutates the list in place, so the updated
list is threaded on), its formula is unpacked recursively, and the
unpacked content is substituted into the result when it depends on the
sought quantity. -/
def fadLoop (rec2 : Expr → List Nat → Expr × List Nat) (st : Store)
    (find : Nat) : List Nat → Expr → List Nat → Expr × List Nat
  | [], unpacked, ignore => (unpacked, ignore)
  | i :: rest, unpacked, ignore =>
    match st.get? i with
    | none => fadLoop rec2 st find rest unpacked ignore
    | some q =>
      match q.value_formula with
      | FormulaVal.expr f =>
        if ignore.contains i then fadLoop rec2 st find rest unpacked ignore
        else
          let r := rec2 f (ignore ++ [i])
          if r.1.freeSymbols.contains find then
            fadLoop rec2 st find rest (unpacked.subs i r.1) r.2
          else
            fadLoop rec2 st find rest unpacked r.2
      | _ => fadLoop rec2 st find rest unpacked ignore

/-- The recursion of _find_all_dependencies, core.py lines 431 through
442, with a fuel argument bounding the unpacking depth (the source
recursion terminates through the growth of the shared ignore list; any
fuel larger than the store size is exact for acyclic formula graphs). -/
def fadRun : Nat → Store → Nat → Expr → List Nat → Expr × List Nat
  | 0, _, _, e, ignore => (e, ignore)
  | fuel + 1, st, find, e, ignore =>
    fadLoop (fun f ig => fadRun fuel st find f ig) st find
      e.freeSymbols e ignore

/-- _find_all_dependencies of core.py: unpacks quantities in expr until
all dependencies on find are found, threading the (in Python, default
and shared) ignore list explicitly. -/
def find_all_dependencies (fuel : Nat) (st : Store) (expr : Expr)
    (find : Nat) (ignore : List Nat) : Expr × List Nat :=
  fadRun fuel st find expr ignore

/-- Componentwise agreement of two unit-parse results on everything but
the canonical unit expressions: equal factors, equal dimensions, and
agreement on whether a canonical unit is present. -/
def UnitInfo.coreEq (a b : UnitInfo) : Prop :=
  a.value_factor = b.value_factor ∧ a.value_dim = b.value_dim ∧
  a.value_unit.isSome = b.value_unit.isSome ∧
  a.error_factor = b.error_factor ∧ a.error_dim = b.error_dim ∧
  a.error_unit.isSome = b.error_unit.isSome

/-- Lifts a relation to Except results: both succeed with related
values, or both fail with the same error. -/
def exceptRel (r : UnitInfo → UnitInfo → Prop) :
    Except Err UnitInfo → Except Err UnitInfo → Prop
  | .ok a, .ok b => r a b
  | .error e1, .error e2 => e1 = e2
  | _, _ => False

/-- The dimension of a length. -/
def dimLen : Dimension := ⟨1, 0, 0⟩

/-- The dimension of an area (length squared). -/
def dimLen2 : Dimension := ⟨2, 0, 0⟩

/-- A unit resolver sending every unit expression to factor one and the
dimensionless dimension. -/
def puTriv : UnitResolver := fun u => (1, Dimension.one, u)

/-- A unit resolver knowing km (factor 1000, dimension length) and
treating everything else as factor one and dimensionless. -/
def puKm : UnitResolver := fun u =>
  if u = "km" then (1000, dimLen, "km") else (1, Dimension.one, u)

/-- A unit resolver with the same factors and dimensions as puKm but
different canonical unit expressions. -/
def puKmAlias : UnitResolver := fun u =>
  if u = "km" then (1000, dimLen, "kilometre")
  else (1, Dimension.one, u ++ "?")

/-- A quantity of dimension length with value 2 and error one half. -/
def qX : Quantity :=
  ⟨"x", none, some (NDArray.scalar 2), FormulaVal.none,
   some (NDArray.scalar (1 / 2)), FormulaVal.none, dimLen, none⟩

/-- A store holding only qX. -/
def stX : Store := [qX]

/-- A 3 by 4 value array. -/
def v34 : NDArray := ⟨[3, 4], [1, 2, 3, 4, 5, 6, 7, 8, 9, 10, 11, 12]⟩

/-- An error array of shape (4,), a trailing sub-shape of (3,4). -/
def e4 : NDArray := ⟨[4], [10, 20, 30, 40]⟩

/-- An error array of shape (3,), not a trailing sub-shape of (3,4). -/
def e3 : NDArray := ⟨[3], [10, 20, 30]⟩

/-- A fit parameter of unknown (dimensionless placeholder) dimension
with a preferred unit to be cleared by the solver. -/
def qK : Quantity :=
  ⟨"k", none, none, FormulaVal.none, none, FormulaVal.none,
   Dimension.one, some "u"⟩

/-- A known quantity of dimension length. -/
def qV : Quantity :=
  ⟨"v", none, some (NDArray.scalar 3), FormulaVal.none, none,
   FormulaVal.none, dimLen, none⟩

/-- The store for the fit dimension-check fixtures. -/
def stKV : Store := [qK, qV]

/-- A dimension solver fixture assigning length to both k and v. -/
def solverKV : DimSolver := fun _ _ _ => .ok [("k", dimLen), ("v", dimLen)]

/-- A quantity whose value formula references the quantity at index 1. -/
def qF : Quantity :=
  ⟨"f", none, some (NDArray.scalar 2), FormulaVal.expr (Expr.qref 1),
   none, FormulaVal.none, Dimension.one, none⟩

/-- A raw quantity with no value formula. -/
def qIndep : Quantity :=
  ⟨"x", none, some (NDArray.scalar 1), FormulaVal.none, none,
   FormulaVal.none, Dimension.one, none⟩

/-- The store for the dependency-unpacking fixtures. -/
def stFad : Store := [qF, qIndep]

/-- A store holding a single fit-parameter placeholder. -/
def stP : Store :=
  [⟨"m", none, none, FormulaVal.none, none, FormulaVal.none,
    Dimension.one, none⟩]

theorem takeCycAux_nil_eq (l : List Rat) (m : Nat) :
    takeCycAux l [] m = takeCyc l m := by
  cases m with
  | zero => cases l <;> rfl
  | succ m => cases l <;> rfl

theorem takeCycAux_consume (l : List Rat) (cur : List Rat) (m : Nat) :
    takeCycAux l cur (cur.length + m) = cur ++ takeCycAux l [] m := by
  induction cur with
  | nil => simp
  | cons c cs ih =>
    have h : (c :: cs).length + m = (cs.length + m) + 1 := by
      simp [List.length_cons]; omega
    rw [h]
    show c :: takeCycAux l cs (cs.length + m) = c :: (cs ++ takeCycAux l [] m)
    rw [ih]

theorem takeCyc_cycle (l : List Rat) (m : Nat) :
    takeCyc l (l.length + m) = l ++ takeCyc l m := by
  show takeCycAux l l (l.length + m) = l ++ takeCyc l m
  rw [takeCycAux_consume, takeCycAux_nil_eq]

theorem takeCyc_replicate (l : List Rat) (k : Nat) :
    takeCyc l (k * l.length) = (List.replicate k l).flatten := by
  induction k with
  | zero => rw [Nat.zero_mul]; cases l <;> rfl
  | succ k ih =>
    have h : (k + 1) * l.length = l.length + k * l.length := by ring
    rw [h, takeCyc_cycle, ih, List.replicate_succ, List.flatten_cons]

/-- C7: assign mutates nothing: with the Python heap threaded
explicitly, the store coming out of assign is the store that went in,
element for element, whether the call succeeds or aborts with a
dimension- or shape-mismatch failure; every previously constructed
quantity is unchanged. -/
theorem claim_C7_assign_no_mutation (pu : UnitResolver) (st : Store)
    (value : AssignValue) (error : Option NDArray)
    (unit name longname value_unit error_unit : Option String)
    (ignore_dim : Bool) :
    (assign pu st value error unit name longname value_unit error_unit
        ignore_dim).2 = st
    ∧ ∀ i : Nat,
        (assign pu st value error unit name longname value_unit error_unit
            ignore_dim).2.get? i = st.get? i :=
  ⟨rfl, fun _ => rfl⟩

/-- C3: when a value unit and an error unit are specified separately and
resolve to unequal dimensions, assign fails with a dimension-mismatch
condition naming both dimensions; a single combined unit resolves once
and its scale factor, dimension and canonical expression are applied
identically to the value and to the error, with no failure possible in
unit parsing. -/
theorem claim_C3_unit_dim_consistency (pu : UnitResolver) (st : Store)
    (value : AssignValue) (error : Option NDArray)
    (name longname : Option String) (vu eu : String) (ignore_dim : Bool) :
    ((pu vu).2.1 ≠ (pu eu).2.1 →
      (assign pu st value error none name longname (some vu) (some eu)
          ignore_dim).1
        = .error (.dimMismatch (pu vu).2.1 (pu eu).2.1))
    ∧ ∀ u : String, ∀ vu2 eu2 : Option String,
        parse_units pu (some u) vu2 eu2
          = .ok ⟨(pu u).1, (pu u).2.1, some (pu u).2.2,
                 (pu u).1, (pu u).2.1, some (pu u).2.2⟩ := by
  constructor
  · intro h
    simp [assign, assignE, parse_units, h]
  · intro u vu2 eu2
    rfl

/-- Witness for C3 at a concrete input: km and s resolve to different
dimensions, and assign reports exactly those two dimensions. -/
theorem claim_C3_witness :
    (puKm "km").2.1 ≠ (puKm "s").2.1
    ∧ (assign puKm stX (AssignValue.num (NDArray.scalar 1)) none none none
        none (some "km") (some "s") false).1
      = .error (.dimMismatch (puKm "km").2.1 (puKm "s").2.1) := by
  have h : (puKm "km").2.1 ≠ (puKm "s").2.1 := by decide
  exact ⟨h, (claim_C3_unit_dim_consistency puKm stX
    (AssignValue.num (NDArray.scalar 1)) none none none "km" "s" false).1 h⟩

/-- C10: the dependency unpacker is not deterministic across calls once
the Python default-argument semantics of its ignore list is made
explicit: the list object created for the default is shared by every
call that omits the argument, so the state it reaches after one call
(second component) is the state the next call starts from.  Two calls
with identical store, expression and target then return different
results: the first unpacks the dependency, the second misses it. -/
theorem claim_C10_find_all_dependencies_stateful :
    find_all_dependencies 2 stFad (Expr.qref 0) 1 [] = (Expr.qref 1, [0])
    ∧ find_all_dependencies 2 stFad (Expr.qref 0) 1
        (find_all_dependencies 2 stFad (Expr.qref 0) 1 []).2
      = (Expr.qref 0, [0])
    ∧ Expr.qref 1 ≠ Expr.qref 0 := by
  refine ⟨by decide, by decide, by decide⟩

theorem fit_save_results_get_notMem (params : List Nat) :
    ∀ st values errors i, i ∉ params →
      (fit_save_results st params values errors).get? i = st.get? i := by
  induction params with
  | nil => intro st values errors i _; cases values <;> cases errors <;> rfl
  | cons i0 ps ih =>
    intro st values errors i hi
    cases values with
    | nil => rfl
    | cons v vs =>
      cases errors with
      | nil => rfl
      | cons er es =>
        have hne : i ≠ i0 := fun h => hi (h ▸ List.mem_cons_self i0 ps)
        have hnotin : i ∉ ps := fun h => hi (List.mem_cons_of_mem i0 h)
        simp only [fit_save_results]
        cases hq : st.get? i0 with
        | none => exact ih _ _ _ _ hnotin
        | some q =>
          rw [ih _ _ _ _ hnotin]
          simp [List.get?_eq_getElem?, List.getElem?_set_ne (Ne.symm hne)]

theorem fit_save_results_get (params : List Nat) :
    ∀ st values errors k i v er q, params.Nodup →
      params.get? k = some i → values.get? k = some v →
      errors.get? k = some er → st.get? i = some q →
      (fit_save_results st params values errors).get? i
        = some
          { q with
            value := some v,
            value_formula := FormulaVal.str "fit",
            error := some er,
            error_formula := FormulaVal.str "fit" } := by
  induction params with
  | nil => intro st values errors k i v er q _ hk; simp at hk
  | cons i0 ps ih =>
    intro st values errors k i v er q hnd hk hv her hq
    cases values with
    | nil => simp at hv
    | cons v0 vs =>
      cases errors with
      | nil => simp at her
      | cons er0 es =>
        simp only [fit_save_results]
        cases k with
        | zero =>
          simp only [List.get?] at hk hv her
          obtain rfl : i0 = i := by injection hk
          obtain rfl : v0 = v := by injection hv
          obtain rfl : er0 = er := by injection her
          have hi0 : i0 ∉ ps := (List.nodup_cons.mp hnd).1
          have hlt : i0 < st.length := by
            rcases List.get?_eq_some.mp hq with ⟨h, _⟩
            exact h
          rw [hq]
          rw [fit_save_results_get_notMem ps _ _ _ _ hi0]
          rw [List.get?_eq_getElem?]
          simp [List.getElem?_set_self, hlt]
        | succ k =>
          simp only [List.get?] at hk hv her
          have hmem : i ∈ ps := List.get?_mem hk
          have hne : i ≠ i0 := by
            intro h
            exact (List.nodup_cons.mp hnd).1 (h ▸ hmem)
          cases hq0 : st.get? i0 with
          | none => exact ih st vs es k i v er q (List.nodup_cons.mp hnd).2 hk hv her hq
          | some q0 =>
            refine ih _ vs es k i v er q (List.nodup_cons.mp hnd).2 hk hv her ?_
            rw [List.get?_eq_getElem?, List.getElem?_set_ne (Ne.symm hne),
              ← List.get?_eq_getElem?]
            exact hq

theorem process_error_no_str (st : Store) (error : Option NDArray)
    (v : NDArray) (vf : Option Expr) (ui : UnitInfo) (ig : Bool)
    (pe : Option NDArray × FormulaVal)
    (h : process_error st error v vf ui ig = .ok pe) :
    pe.2.isStr = false := by
  unfold process_error at h
  cases error with
  | some er0 =>
    simp only at h
    split at h
    · cases h; rfl
    · cases h
  | none =>
    cases vf with
    | some f =>
      simp only at h
      cases hge : get_error st f with
      | error e => rw [hge] at h; cases h
      | ok r => rw [hge] at h; cases h; rfl
    | none => cases h; rfl

theorem assignE_ok_inv (pu : UnitResolver) (st : Store) (value : AssignValue)
    (error : Option NDArray) (unit name longname vu eu : Option String)
    (ig : Bool) (q : Quantity)
    (h : assignE pu st value error unit name longname vu eu ig = .ok q) :
    ∃ ui pv pe, parse_units pu unit vu eu = .ok ui
      ∧ process_value st value ui ig = .ok pv
      ∧ process_error st error pv.1 pv.2.1 ui ig = .ok pe
      ∧ q = mkQuantity name longname pv pe ui := by
  unfold assignE at h
  split at h
  next er heq => cases h
  next ui heq =>
    split at h
    next er2 heq2 => cases h
    next pv heq2 =>
      split at h
      next er3 heq3 => cases h
      next pe heq3 =>
        cases h
        exact ⟨ui, pv, pe, heq, heq2, heq3, rfl⟩

/-- C6 counterexample: at a concrete store holding one parameter
placeholder, the result-saving stage of fit stores the plain string fit
in value_formula, contradicting the claim that no operation ever does. -/
theorem claim_C6_counterexample :
    ((fit_save_results stP [0] [NDArray.scalar 3] [NDArray.scalar 1]).get? 0).map
        Quantity.value_formula = some (FormulaVal.str "fit")
    ∧ (FormulaVal.str "fit").isStr = true := by
  exact ⟨rfl, rfl⟩

/-- C6 amended: fit's post-hoc overwrite stores the string fit in both
value_formula and error_formula of every parameter quantity (so
value_formula ranges over expressions, absence, and the fit marker,
contrary to the claim that only error_formula may hold it); assign never
stores a string in either formula slot. -/
theorem claim_C6_amended (st : Store) (params : List Nat)
    (values errors : List NDArray) (k i : Nat) (v er : NDArray) (q : Quantity)
    (pu : UnitResolver) (st2 : Store) (value : AssignValue)
    (error : Option NDArray) (unit name longname vu eu : Option String)
    (ig : Bool) (q2 : Quantity) :
    (params.Nodup → params.get? k = some i → values.get? k = some v →
      errors.get? k = some er → st.get? i = some q →
      (fit_save_results st params values errors).get? i
        = some
          { q with
            value := some v,
            value_formula := FormulaVal.str "fit",
            error := some er,
            error_formula := FormulaVal.str "fit" })
    ∧ ((assign pu st2 value error unit name longname vu eu ig).1 = .ok q2 →
        q2.value_formula.isStr = false ∧ q2.error_formula.isStr = false) := by
  constructor
  · intro hnd hk hv her hq
    exact fit_save_results_get params st values errors k i v er q hnd hk hv her hq
  · intro h
    rcases assignE_ok_inv pu st2 value error unit name longname vu eu ig q2 h
      with ⟨ui, ⟨pv1, pvf, pvd⟩, pe, _, _, hpe, rfl⟩
    constructor
    · cases pvf <;> rfl
    · exact process_error_no_str st2 error pv1 pvf ui ig pe hpe

/-- Witness for C6 at concrete inputs: one fit parameter receives the
fit markers in both formula slots, and a concrete successful assign
leaves no string in either slot. -/
theorem claim_C6_witness :
    ([0] : List Nat).Nodup
    ∧ (fit_save_results stP [0] [NDArray.scalar 3] [NDArray.scalar 1]).get? 0
        = some ⟨"m", none, some (NDArray.scalar 3), FormulaVal.str "fit",
                some (NDArray.scalar 1), FormulaVal.str "fit",
                Dimension.one, none⟩
    ∧ (assign puTriv [] (AssignValue.num (NDArray.scalar 1)) none none none
          none none none false).1
        = .ok ⟨"dummy", none, some (NDArray.smul 1 (NDArray.scalar 1)),
               FormulaVal.none, none, FormulaVal.none, Dimension.one, none⟩
    ∧ (⟨"dummy", none, some (NDArray.smul 1 (NDArray.scalar 1)),
        FormulaVal.none, none, FormulaVal.none, Dimension.one,
        none⟩ : Quantity).value_formula.isStr = false := by
  refine ⟨by decide, ?_, rfl, ?_⟩
  · exact (claim_C6_amended stP [0] [NDArray.scalar 3] [NDArray.scalar 1] 0 0
      (NDArray.scalar 3) (NDArray.scalar 1)
      ⟨"m", none, none, FormulaVal.none, none, FormulaVal.none,
       Dimension.one, none⟩
      puTriv [] (AssignValue.num (NDArray.scalar 1)) none none none none none
      none false
      ⟨"dummy", none, some (NDArray.smul 1 (NDArray.scalar 1)),
       FormulaVal.none, none, FormulaVal.none, Dimension.one, none⟩).1
      (by decide) rfl rfl rfl rfl
  · exact ((claim_C6_amended stP [0] [NDArray.scalar 3] [NDArray.scalar 1] 0 0
      (NDArray.scalar 3) (NDArray.scalar 1)
      ⟨"m", none, none, FormulaVal.none, none, FormulaVal.none,
       Dimension.one, none⟩
      puTriv [] (AssignValue.num (NDArray.scalar 1)) none none none none none
      none false
      ⟨"dummy", none, some (NDArray.smul 1 (NDArray.scalar 1)),
       FormulaVal.none, none, FormulaVal.none, Dimension.one, none⟩).2
      rfl).1

/-- C9: with only an error unit given (no combined unit, no value unit)
and a literal numeric value, assign succeeds with the dimensionless
default dimension regardless of the dimension the error unit resolves
to (the resolver pu is arbitrary, so no consistency check between the
error unit dimension and the quantity dimension takes place), while the
error is still scaled by the error unit factor and prefer_unit is the
canonical error unit. -/
theorem claim_C9_error_unit_only (pu : UnitResolver) (st : Store)
    (a er : NDArray) (name longname : Option String) (eu : String)
    (ignore_dim : Bool)
    (hshape : er.shape = [] ∨
      trailingShape a.shape er.shape.length = er.shape) :
    (assign pu st (AssignValue.num a) (some er) none name longname none
        (some eu) ignore_dim).1
      = .ok { name := name.getD "dummy", longname := longname,
              value := some (NDArray.smul 1 a),
              value_formula := FormulaVal.none,
              error := some ((NDArray.smul (pu eu).1 er).resize a.shape),
              error_formula := FormulaVal.none,
              dim := Dimension.one,
              prefer_unit := some (pu eu).2.2 } := by
  have hcond : (NDArray.smul (pu eu).1 er).shape = [] ∨
      trailingShape (NDArray.smul 1 a).shape
          (NDArray.smul (pu eu).1 er).shape.length
        = (NDArray.smul (pu eu).1 er).shape := hshape
  show assignE pu st (AssignValue.num a) (some er) none name longname none
      (some eu) ignore_dim = _
  simp only [assignE, parse_units, process_value, process_error]
  rw [if_pos hcond]
  rfl

/-- Witness for C9 at a concrete input: the error unit km has dimension
length, the value is a plain array, and the resulting quantity is
dimensionless with the error scaled by 1000 and prefer_unit km. -/
theorem claim_C9_witness :
    ((NDArray.scalar 5).shape = [] ∨
      trailingShape (⟨[2], [3, 4]⟩ : NDArray).shape
          (NDArray.scalar 5).shape.length = (NDArray.scalar 5).shape)
    ∧ (assign puKm stX (AssignValue.num ⟨[2], [3, 4]⟩)
          (some (NDArray.scalar 5)) none none none none (some "km") false).1
        = .ok { name := "dummy", longname := none,
                value := some (NDArray.smul 1 ⟨[2], [3, 4]⟩),
                value_formula := FormulaVal.none,
                error := some ((NDArray.smul (puKm "km").1
                    (NDArray.scalar 5)).resize [2]),
                error_formula := FormulaVal.none,
                dim := Dimension.one,
                prefer_unit := some (puKm "km").2.2 } :=
  ⟨Or.inl rfl,
   claim_C9_error_unit_only puKm stX ⟨[2], [3, 4]⟩ (NDArray.scalar 5) none
     none "km" false (Or.inl rfl)⟩

/-- C2: for a call to assign with an explicit error, once the unit
parsing and value processing stages have produced their results, the
scaled error is accepted exactly when it is scalar or its shape matches
a trailing sub-shape of the value shape; the stored error then has
exactly the value shape and its data is the error data repeated across
the remaining leading axes, and any other shape aborts assign with a
shape mismatch naming the value shape and the error shape. -/
theorem claim_C2_error_shape_broadcast (pu : UnitResolver) (st : Store)
    (value : AssignValue) (er : NDArray)
    (unit name longname vu eu : Option String) (ig : Bool) (ui : UnitInfo)
    (pv : NDArray × Option Expr × Dimension)
    (hui : parse_units pu unit vu eu = .ok ui)
    (hpv : process_value st value ui ig = .ok pv) :
    (((NDArray.smul ui.error_factor er).shape = [] ∨
        trailingShape pv.1.shape (NDArray.smul ui.error_factor er).shape.length
          = (NDArray.smul ui.error_factor er).shape) →
      (assign pu st value (some er) unit name longname vu eu ig).1
        = .ok (mkQuantity name longname pv
            (some ((NDArray.smul ui.error_factor er).resize pv.1.shape),
             FormulaVal.none) ui)
      ∧ ((NDArray.smul ui.error_factor er).resize pv.1.shape).shape
          = pv.1.shape)
    ∧ (∀ lead : List Nat,
        pv.1.shape = lead ++ er.shape → er.data.length = er.shape.prod →
        ((NDArray.smul ui.error_factor er).resize pv.1.shape).data
          = (List.replicate lead.prod
              (NDArray.smul ui.error_factor er).data).flatten)
    ∧ (¬ ((NDArray.smul ui.error_factor er).shape = [] ∨
          trailingShape pv.1.shape
              (NDArray.smul ui.error_factor er).shape.length
            = (NDArray.smul ui.error_factor er).shape) →
      (assign pu st value (some er) unit name longname vu eu ig).1
        = .error (.shapeMismatch pv.1.shape
            (NDArray.smul ui.error_factor er).shape)) := by
  refine ⟨?_, ?_, ?_⟩
  · intro hcond
    constructor
    · show assignE pu st value (some er) unit name longname vu eu ig = _
      simp only [assignE, hui, hpv, process_error]
      rw [if_pos hcond]
    · rfl
  · intro lead hlead hwf
    have hlen : (NDArray.smul ui.error_factor er).data.length
        = er.shape.prod := by
      simp [NDArray.smul, hwf]
    show takeCyc (NDArray.smul ui.error_factor er).data pv.1.shape.prod = _
    rw [hlead, List.prod_append, ← hlen, takeCyc_replicate]
  · intro hcond
    show assignE pu st value (some er) unit name longname vu eu ig = _
    simp only [assignE, hui, hpv, process_error]
    rw [if_neg hcond]

/-- Witness for C2 at the shapes named by the claim: a (3,4) value with
a (4,) error succeeds with the error duplicated along the leading axis,
and the same value with a (3,) error fails with a shape mismatch
reporting (3,4) and (3,). -/
theorem claim_C2_witness :
    parse_units puTriv none none none
      = .ok ⟨1, Dimension.one, none, 1, Dimension.one, none⟩
    ∧ process_value [] (AssignValue.num v34)
        ⟨1, Dimension.one, none, 1, Dimension.one, none⟩ false
      = .ok (NDArray.smul 1 v34, none, Dimension.one)
    ∧ (assign puTriv [] (AssignValue.num v34) (some e4) none none none none
        none false).1
      = .ok (mkQuantity none none (NDArray.smul 1 v34, none, Dimension.one)
          (some ((NDArray.smul 1 e4).resize (NDArray.smul 1 v34).shape),
           FormulaVal.none)
          ⟨1, Dimension.one, none, 1, Dimension.one, none⟩)
    ∧ ((NDArray.smul 1 e4).resize (NDArray.smul 1 v34).shape).shape
        = (NDArray.smul 1 v34).shape
    ∧ ((NDArray.smul 1 e4).resize (NDArray.smul 1 v34).shape).data
        = (List.replicate 3 (NDArray.smul 1 e4).data).flatten
    ∧ (assign puTriv [] (AssignValue.num v34) (some e3) none none none none
        none false).1
      = .error (.shapeMismatch (NDArray.smul 1 v34).shape
          (NDArray.smul 1 e3).shape) := by
  have h1 := claim_C2_error_shape_broadcast puTriv [] (AssignValue.num v34) e4
    none none none none none false
    ⟨1, Dimension.one, none, 1, Dimension.one, none⟩
    (NDArray.smul 1 v34, none, Dimension.one) rfl rfl
  have h2 := claim_C2_error_shape_broadcast puTriv [] (AssignValue.num v34) e3
    none none none none none false
    ⟨1, Dimension.one, none, 1, Dimension.one, none⟩
    (NDArray.smul 1 v34, none, Dimension.one) rfl rfl
  refine ⟨rfl, rfl, (h1.1 (by decide)).1, (h1.1 (by decide)).2, ?_, ?_⟩
  · have h3 := h1.2.1 [3] (by decide) (by decide)
    simpa using h3
  · exact h2.2.2 (by decide)

theorem process_value_expr_ig (st : Store) (e : Expr) (ui : UnitInfo)
    (v : NDArray) (hnum : e.isNumber = false)
    (hv : get_value st e = .ok v) :
    process_value st (AssignValue.expr e) ui true
      = .ok (NDArray.smul ui.value_factor v, some e, ui.value_dim) := by
  simp [process_value, hnum, hv]

theorem process_value_expr_nounit (st : Store) (e : Expr) (ui : UnitInfo)
    (v : NDArray) (cd : Dimension) (hnum : e.isNumber = false)
    (hv : get_value st e = .ok v) (hcd : get_dimension st e = .ok cd)
    (hnone : ui.value_unit = none) :
    process_value st (AssignValue.expr e) ui false = .ok (v, some e, cd) := by
  simp [process_value, hnum, hv, hcd, hnone]

theorem process_value_expr_unit_match (st : Store) (e : Expr) (ui : UnitInfo)
    (v : NDArray) (cd : Dimension) (u0 : String) (hnum : e.isNumber = false)
    (hv : get_value st e = .ok v) (hcd : get_dimension st e = .ok cd)
    (hsome : ui.value_unit = some u0) (heq : cd = ui.value_dim) :
    process_value st (AssignValue.expr e) ui false
      = .ok (v, some e, ui.value_dim) := by
  simp [process_value, hnum, hv, hcd, hsome, heq]

theorem process_value_expr_unit_mismatch (st : Store) (e : Expr)
    (ui : UnitInfo) (v : NDArray) (cd : Dimension) (u0 : String)
    (hnum : e.isNumber = false) (hv : get_value st e = .ok v)
    (hcd : get_dimension st e = .ok cd) (hsome : ui.value_unit = some u0)
    (hne : cd ≠ ui.value_dim) :
    process_value st (AssignValue.expr e) ui false
      = .error (.dimMismatch ui.value_dim cd) := by
  simp [process_value, hnum, hv, hcd, hsome, hne]

theorem assignE_eq (pu : UnitResolver) (st : Store) (value : AssignValue)
    (error : Option NDArray) (unit name longname vu eu : Option String)
    (ig : Bool) (ui : UnitInfo) (pv : NDArray × Option Expr × Dimension)
    (pe : Option NDArray × FormulaVal)
    (hui : parse_units pu unit vu eu = .ok ui)
    (hpv : process_value st value ui ig = .ok pv)
    (hpe : process_error st error pv.1 pv.2.1 ui ig = .ok pe) :
    assignE pu st value error unit name longname vu eu ig
      = .ok (mkQuantity name longname pv pe ui) := by
  simp only [assignE, hui, hpv, hpe]

theorem assignE_pv_error (pu : UnitResolver) (st : Store)
    (value : AssignValue) (error : Option NDArray)
    (unit name longname vu eu : Option String) (ig : Bool) (ui : UnitInfo)
    (er : Err) (hui : parse_units pu unit vu eu = .ok ui)
    (hpv : process_value st value ui ig = .error er) :
    assignE pu st value error unit name longname vu eu ig = .error er := by
  simp only [assignE, hui, hpv]

theorem parse_units_no_value_unit (pu : UnitResolver)
    (eu : Option String) (ui : UnitInfo)
    (hui : parse_units pu none none eu = .ok ui) :
    ui.value_factor = 1 ∧ ui.value_dim = Dimension.one
      ∧ ui.value_unit = none := by
  cases eu with
  | none =>
    cases hui
    exact ⟨rfl, rfl, rfl⟩
  | some u =>
    cases hui
    exact ⟨rfl, rfl, rfl⟩

/-- C1 amended: for a non-literal symbolic value the numeric value comes
from evaluating the formula; with dimension checking enabled and a
declared value (or combined) unit, a computed dimension different from
the declared one aborts assign with a dimension mismatch, and an equal
one keeps the declared dimension; with dimension checking disabled the
value is rescaled by the declared factor and the declared dimension is
kept, so that with no unit at all the value is unscaled and the
dimension is the dimensionless default, the formula dimension being
ignored; the computed dimension becomes the quantity dimension only
when no unit was given and dimension checking is enabled. -/
theorem claim_C1_formula_value_dim (pu : UnitResolver) (st : Store)
    (e : Expr) (error : Option NDArray)
    (unit name longname vu eu : Option String) (ig : Bool) (ui : UnitInfo)
    (v : NDArray) (hnum : e.isNumber = false)
    (hui : parse_units pu unit vu eu = .ok ui)
    (hv : get_value st e = .ok v) :
    (ig = false → ∀ u0, ui.value_unit = some u0 →
      ∀ cd, get_dimension st e = .ok cd → cd ≠ ui.value_dim →
        (assign pu st (AssignValue.expr e) error unit name longname vu eu
            ig).1
          = .error (.dimMismatch ui.value_dim cd))
    ∧ (ig = false → ∀ u0, ui.value_unit = some u0 →
      ∀ cd, get_dimension st e = .ok cd → cd = ui.value_dim →
        ∀ q, (assign pu st (AssignValue.expr e) error unit name longname vu
            eu ig).1 = .ok q →
          q.value = some v ∧ q.dim = ui.value_dim
            ∧ q.value_formula = FormulaVal.expr e)
    ∧ (ig = true →
        ∀ q, (assign pu st (AssignValue.expr e) error unit name longname vu
            eu ig).1 = .ok q →
          q.value = some (NDArray.smul ui.value_factor v)
            ∧ q.dim = ui.value_dim)
    ∧ (ig = true → unit = none → vu = none →
        ∀ q, (assign pu st (AssignValue.expr e) error unit name longname vu
            eu ig).1 = .ok q →
          q.value = some (NDArray.smul 1 v) ∧ q.dim = Dimension.one)
    ∧ (ig = false → ui.value_unit = none →
        ∀ cd, get_dimension st e = .ok cd →
          ∀ q, (assign pu st (AssignValue.expr e) error unit name longname vu
              eu ig).1 = .ok q →
            q.value = some v ∧ q.dim = cd) := by
  refine ⟨?_, ?_, ?_, ?_, ?_⟩
  · intro hig u0 hsome cd hcd hne
    subst hig
    exact assignE_pv_error pu st (AssignValue.expr e) error unit name longname
      vu eu false ui (Err.dimMismatch ui.value_dim cd) hui
      (process_value_expr_unit_mismatch st e ui v cd u0 hnum hv hcd hsome hne)
  · intro hig u0 hsome cd hcd heq q hq
    subst hig
    rcases assignE_ok_inv pu st (AssignValue.expr e) error unit name longname
      vu eu false q hq with ⟨ui2, pv, pe, hui2, hpv2, hpe2, rfl⟩
    have hu : ui2 = ui := by
      rw [hui] at hui2
      injection hui2 with h2
      exact h2.symm
    rw [hu] at hpv2
    rw [process_value_expr_unit_match st e ui v cd u0 hnum hv hcd hsome heq]
      at hpv2
    have hp : pv = (v, some e, ui.value_dim) := by
      injection hpv2 with h3
      exact h3.symm
    subst hp
    exact ⟨rfl, rfl, rfl⟩
  · intro hig q hq
    subst hig
    rcases assignE_ok_inv pu st (AssignValue.expr e) error unit name longname
      vu eu true q hq with ⟨ui2, pv, pe, hui2, hpv2, hpe2, rfl⟩
    have hu : ui2 = ui := by
      rw [hui] at hui2
      injection hui2 with h2
      exact h2.symm
    rw [hu] at hpv2
    rw [process_value_expr_ig st e ui v hnum hv] at hpv2
    have hp : pv = (NDArray.smul ui.value_factor v, some e, ui.value_dim) := by
      injection hpv2 with h3
      exact h3.symm
    subst hp
    exact ⟨rfl, rfl⟩
  · intro hig hunit hvu q hq
    subst hig; subst hunit; subst hvu
    rcases parse_units_no_value_unit pu eu ui hui with ⟨hf, hd, _⟩
    rcases assignE_ok_inv pu st (AssignValue.expr e) error none name longname
      none eu true q hq with ⟨ui2, pv, pe, hui2, hpv2, hpe2, rfl⟩
    have hu : ui2 = ui := by
      rw [hui] at hui2
      injection hui2 with h2
      exact h2.symm
    rw [hu] at hpv2
    rw [process_value_expr_ig st e ui v hnum hv] at hpv2
    have hp : pv = (NDArray.smul ui.value_factor v, some e, ui.value_dim) := by
      injection hpv2 with h3
      exact h3.symm
    subst hp
    rw [hf, hd]
    exact ⟨rfl, rfl⟩
  · intro hig hnone cd hcd q hq
    subst hig
    rcases assignE_ok_inv pu st (AssignValue.expr e) error unit name longname
      vu eu false q hq with ⟨ui2, pv, pe, hui2, hpv2, hpe2, rfl⟩
    have hu : ui2 = ui := by
      rw [hui] at hui2
      injection hui2 with h2
      exact h2.symm
    rw [hu] at hpv2
    rw [process_value_expr_nounit st e ui v cd hnum hv hcd hnone] at hpv2
    have hp : pv = (v, some e, cd) := by
      injection hpv2 with h3
      exact h3.symm
    subst hp
    exact ⟨rfl, rfl⟩

/-- C1 counterexample: with a non-literal symbolic value, no unit at
all and dimension checking disabled, assign succeeds with the
dimensionless default dimension although the dimension computed from
the formula is length, refuting the unconditional reading that with no
unit the resulting dimension is the computed one. -/
theorem claim_C1_counterexample :
    (assign puTriv stX (AssignValue.expr (Expr.qref 0)) none none none none
        none none true).1.map Quantity.dim = Except.ok Dimension.one
    ∧ get_dimension stX (Expr.qref 0) = Except.ok dimLen
    ∧ Dimension.one ≠ dimLen := by
  refine ⟨?_, rfl, by decide⟩
  norm_num [assign, assignE, parse_units, process_value, process_error,
    mkQuantity, get_value, get_dimension, get_error, getQ, errorFormulaOf,
    arith2, mapArr, Expr.isNumber, Expr.qrefs, Expr.errrefs, Expr.freeSymbols,
    Expr.diff, NDArray.smul, NDArray.scalar, NDArray.scalarVal, stX, qX,
    puTriv, dimLen, List.dedup, Except.map]

/-- Witness for C1 at a concrete input: a symbolic value of computed
dimension length against a declared dimensionless value unit aborts
with a dimension mismatch naming both dimensions. -/
theorem claim_C1_witness :
    (Expr.qref 0).isNumber = false
    ∧ parse_units puKm none (some "s") none
        = .ok ⟨1, Dimension.one, some "s", 1, Dimension.one, none⟩
    ∧ get_value stX (Expr.qref 0) = .ok (NDArray.scalar 2)
    ∧ get_dimension stX (Expr.qref 0) = .ok dimLen
    ∧ dimLen ≠ (⟨1, Dimension.one, some "s", 1, Dimension.one,
        none⟩ : UnitInfo).value_dim
    ∧ (assign puKm stX (AssignValue.expr (Expr.qref 0)) none none none none
        (some "s") none false).1
      = .error (.dimMismatch
          (⟨1, Dimension.one, some "s", 1, Dimension.one,
            none⟩ : UnitInfo).value_dim dimLen) := by
  refine ⟨rfl, rfl, rfl, rfl, by decide, ?_⟩
  exact (claim_C1_formula_value_dim puKm stX (Expr.qref 0) none none none
    none (some "s") none false
    ⟨1, Dimension.one, some "s", 1, Dimension.one, none⟩
    (NDArray.scalar 2) rfl rfl rfl).1 rfl "s" rfl dimLen rfl (by decide)

/-- C4 amended: with an explicit error, the stored error is the given
error scaled by the resolved error-unit factor and broadcast to the
value shape, and no propagation happens (the error formula slot stays
empty); with no explicit error and a formula-derived value, the error is
the propagated one, rescaled by the resolved error-unit factor (not by
the declared value-unit factor) exactly when dimension checking is
disabled, and the symbolic error formula is retained; with neither, the
quantity has no error. -/
theorem claim_C4_error_selection (pu : UnitResolver) (st : Store)
    (value : AssignValue) (er : NDArray)
    (unit name longname vu eu : Option String) (ig : Bool) (ui : UnitInfo)
    (pv : NDArray × Option Expr × Dimension)
    (hui : parse_units pu unit vu eu = .ok ui)
    (hpv : process_value st value ui ig = .ok pv) :
    (((NDArray.smul ui.error_factor er).shape = [] ∨
        trailingShape pv.1.shape (NDArray.smul ui.error_factor er).shape.length
          = (NDArray.smul ui.error_factor er).shape) →
      (assign pu st value (some er) unit name longname vu eu ig).1
        = .ok (mkQuantity name longname pv
            (some ((NDArray.smul ui.error_factor er).resize pv.1.shape),
             FormulaVal.none) ui))
    ∧ (∀ f r, pv.2.1 = some f → get_error st f = .ok r →
        (assign pu st value none unit name longname vu eu ig).1
          = .ok (mkQuantity name longname pv
              (some (if ig then NDArray.smul ui.error_factor r.1 else r.1),
               FormulaVal.expr r.2) ui))
    ∧ (pv.2.1 = none →
        (assign pu st value none unit name longname vu eu ig).1
          = .ok (mkQuantity name longname pv (none, FormulaVal.none) ui)) := by
  refine ⟨?_, ?_, ?_⟩
  · intro hcond
    show assignE pu st value (some er) unit name longname vu eu ig = _
    refine assignE_eq pu st value (some er) unit name longname vu eu ig ui pv
      _ hui hpv ?_
    simp only [process_error]
    rw [if_pos hcond]
  · intro f r hf hr
    show assignE pu st value none unit name longname vu eu ig = _
    refine assignE_eq pu st value none unit name longname vu eu ig ui pv
      _ hui hpv ?_
    simp only [process_error, hf, hr]
  · intro hnone
    show assignE pu st value none unit name longname vu eu ig = _
    refine assignE_eq pu st value none unit name longname vu eu ig ui pv
      _ hui hpv ?_
    simp only [process_error, hnone]

/-- C4 counterexample: with a declared value unit of factor 1000, no
error unit, dimension checking disabled and a formula-derived value, the
stored error is the propagated error unchanged, not the propagated
error rescaled by the declared unit factor as the claim reads. -/
theorem claim_C4_counterexample :
    (assign puKm stX (AssignValue.expr (Expr.qref 0)) none none none none
        (some "km") none true).1.map Quantity.error
      = Except.ok (some (NDArray.scalar (1 / 2)))
    ∧ (get_error stX (Expr.qref 0)).map Prod.fst
        = Except.ok (NDArray.scalar (1 / 2))
    ∧ (puKm "km").1 = 1000
    ∧ NDArray.scalar (1 / 2)
        ≠ NDArray.smul (puKm "km").1 (NDArray.scalar (1 / 2)) := by
  refine ⟨?_, ?_, by norm_num [puKm], ?_⟩
  · norm_num [assign, assignE, parse_units, process_value, process_error,
      mkQuantity, get_value, get_dimension, get_error, getQ, errorFormulaOf,
      arith2, mapArr, Expr.isNumber, Expr.qrefs, Expr.errrefs,
      Expr.freeSymbols, Expr.diff, NDArray.smul, NDArray.scalar,
      NDArray.scalarVal, stX, qX, puKm, dimLen, List.dedup, Except.map,
      Rat.sqrt]
  · norm_num [get_error, get_value, getQ, errorFormulaOf, arith2, mapArr,
      Expr.qrefs, Expr.errrefs, Expr.freeSymbols, Expr.diff, NDArray.smul,
      NDArray.scalar, NDArray.scalarVal, stX, qX, List.dedup, Except.map,
      Rat.sqrt]
  · simp only [puKm, NDArray.scalar, NDArray.smul, ne_eq, NDArray.mk.injEq,
      List.map_cons, List.map_nil]
    norm_num

/-- Witness for C4 at a concrete input: a formula-derived value with no
explicit error propagates the error through the formula engine and,
with dimension checking disabled, rescales it by the resolved
error-unit factor, which is one here since only a value unit was
declared. -/
theorem claim_C4_witness :
    parse_units puKm none (some "km") none
      = .ok ⟨1000, dimLen, some "km", 1, Dimension.one, none⟩
    ∧ process_value stX (AssignValue.expr (Expr.qref 0))
        ⟨1000, dimLen, some "km", 1, Dimension.one, none⟩ true
      = .ok (NDArray.smul 1000 (NDArray.scalar 2), some (Expr.qref 0), dimLen)
    ∧ get_error stX (Expr.qref 0)
        = .ok (⟨[], [1 / 2]⟩, errorFormulaOf (Expr.qref 0))
    ∧ (assign puKm stX (AssignValue.expr (Expr.qref 0)) none none none none
        (some "km") none true).1
      = .ok (mkQuantity none none
          (NDArray.smul 1000 (NDArray.scalar 2), some (Expr.qref 0), dimLen)
          (some (NDArray.smul 1 (⟨[], [1 / 2]⟩ : NDArray)),
           FormulaVal.expr (errorFormulaOf (Expr.qref 0)))
          ⟨1000, dimLen, some "km", 1, Dimension.one, none⟩) := by
  have hr : get_error stX (Expr.qref 0)
      = .ok (⟨[], [1 / 2]⟩, errorFormulaOf (Expr.qref 0)) := by
    norm_num [get_error, get_value, getQ, errorFormulaOf, arith2, mapArr,
      Expr.qrefs, Expr.errrefs, Expr.freeSymbols, Expr.diff, NDArray.smul,
      NDArray.scalar, NDArray.scalarVal, stX, qX, List.dedup, Rat.sqrt]
  refine ⟨rfl, rfl, hr, ?_⟩
  exact (claim_C4_error_selection puKm stX (AssignValue.expr (Expr.qref 0))
    (NDArray.scalar 0) none none none (some "km") none true
    ⟨1000, dimLen, some "km", 1, Dimension.one, none⟩
    (NDArray.smul 1000 (NDArray.scalar 2), some (Expr.qref 0), dimLen)
    rfl rfl).2.1 (Expr.qref 0) (⟨[], [1 / 2]⟩, errorFormulaOf (Expr.qref 0))
    rfl hr

theorem parse_units_resolver_congr (pu1 pu2 : UnitResolver)
    (h : ∀ u, (pu1 u).1 = (pu2 u).1 ∧ (pu1 u).2.1 = (pu2 u).2.1)
    (unit vu eu : Option String) :
    exceptRel UnitInfo.coreEq (parse_units pu1 unit vu eu)
      (parse_units pu2 unit vu eu) := by
  cases unit with
  | some u =>
    exact ⟨(h u).1, (h u).2, rfl, (h u).1, (h u).2, rfl⟩
  | none =>
    cases vu with
    | none =>
      cases eu with
      | none => exact ⟨rfl, rfl, rfl, rfl, rfl, rfl⟩
      | some eu2 => exact ⟨rfl, rfl, rfl, (h eu2).1, (h eu2).2, rfl⟩
    | some vu2 =>
      cases eu with
      | none => exact ⟨(h vu2).1, (h vu2).2, rfl, rfl, rfl, rfl⟩
      | some eu2 =>
        simp only [parse_units, (h vu2).2, (h eu2).2]
        by_cases hc : (pu2 vu2).2.1 = (pu2 eu2).2.1
        · rw [if_pos hc, if_pos hc]
          exact ⟨(h vu2).1, rfl, rfl, (h eu2).1, rfl, rfl⟩
        · rw [if_neg hc, if_neg hc]
          rfl

theorem process_value_coreEq (st : Store) (value : AssignValue) (ig : Bool)
    (ui1 ui2 : UnitInfo) (h : UnitInfo.coreEq ui1 ui2) :
    process_value st value ui1 ig = process_value st value ui2 ig := by
  obtain ⟨hvf, hvd, hvs, hef, hed, hes⟩ := h
  cases value with
  | num a => simp only [process_value, hvf, hvd]
  | expr e =>
    simp only [process_value, hvf, hvd]
    cases h1 : ui1.value_unit with
    | none =>
      have h2 : ui2.value_unit = none := by
        rw [h1] at hvs
        cases h2 : ui2.value_unit with
        | none => rfl
        | some u2 => rw [h2] at hvs; simp at hvs
      rw [h2]
    | some u1 =>
      cases h2 : ui2.value_unit with
      | none => rw [h1, h2] at hvs; simp at hvs
      | some u2 => simp [h1, h2]

theorem process_error_coreEq (st : Store) (error : Option NDArray)
    (v : NDArray) (vf : Option Expr) (ig : Bool) (ui1 ui2 : UnitInfo)
    (h : ui1.error_factor = ui2.error_factor) :
    process_error st error v vf ui1 ig = process_error st error v vf ui2 ig := by
  cases error with
  | some er0 => simp only [process_error, h]
  | none =>
    cases vf with
    | some f => simp only [process_error, h]
    | none => rfl

theorem assignE_pe_error (pu : UnitResolver) (st : Store)
    (value : AssignValue) (error : Option NDArray)
    (unit name longname vu eu : Option String) (ig : Bool) (ui : UnitInfo)
    (pv : NDArray × Option Expr × Dimension) (er : Err)
    (hui : parse_units pu unit vu eu = .ok ui)
    (hpv : process_value st value ui ig = .ok pv)
    (hpe : process_error st error pv.1 pv.2.1 ui ig = .error er) :
    assignE pu st value error unit name longname vu eu ig = .error er := by
  simp only [assignE, hui, hpv, hpe]

/-- C8: prefer_unit of the constructed quantity is the canonical value
unit when a value or combined unit was given, else the canonical error
unit when an error unit was given, else absent; and the canonical unit
expressions are display metadata only: two resolvers agreeing on scale
factors and dimensions but differing arbitrarily in canonical unit
expressions give quantities with identical stored value and error
magnitudes (which are the factor-scaled, base-unit arrays). -/
theorem claim_C8_prefer_unit_metadata :
    (∀ (pu : UnitResolver) (st : Store) (value : AssignValue)
        (error : Option NDArray) (unit name longname vu eu : Option String)
        (ig : Bool) (ui : UnitInfo) (q : Quantity),
      parse_units pu unit vu eu = .ok ui →
      (assign pu st value error unit name longname vu eu ig).1 = .ok q →
      q.prefer_unit
        = if ui.value_unit.isSome then ui.value_unit else ui.error_unit)
    ∧ (∀ pu1 pu2 : UnitResolver,
        (∀ u, (pu1 u).1 = (pu2 u).1 ∧ (pu1 u).2.1 = (pu2 u).2.1) →
        ∀ (st : Store) (value : AssignValue) (error : Option NDArray)
          (unit name longname vu eu : Option String) (ig : Bool),
          (assign pu1 st value error unit name longname vu eu ig).1.map
              (fun q => (q.value, q.error))
            = (assign pu2 st value error unit name longname vu eu ig).1.map
              (fun q => (q.value, q.error))) := by
  constructor
  · intro pu st value error unit name longname vu eu ig ui q hui hq
    rcases assignE_ok_inv pu st value error unit name longname vu eu ig q hq
      with ⟨ui2, pv, pe, hui2, hpv2, hpe2, rfl⟩
    have hu : ui2 = ui := by
      rw [hui] at hui2
      injection hui2 with h2
      exact h2.symm
    rw [hu]
    rfl
  · intro pu1 pu2 h st value error unit name longname vu eu ig
    have hrel := parse_units_resolver_congr pu1 pu2 h unit vu eu
    show (assignE pu1 st value error unit name longname vu eu ig).map _
        = (assignE pu2 st value error unit name longname vu eu ig).map _
    cases h1 : parse_units pu1 unit vu eu with
    | error e1 =>
      cases h2 : parse_units pu2 unit vu eu with
      | error e2 =>
        rw [h1, h2] at hrel
        have he : e1 = e2 := hrel
        subst he
        simp only [assignE, h1, h2]
      | ok ui2 =>
        rw [h1, h2] at hrel
        exact absurd hrel id
    | ok ui1 =>
      cases h2 : parse_units pu2 unit vu eu with
      | error e2 =>
        rw [h1, h2] at hrel
        exact absurd hrel id
      | ok ui2 =>
        rw [h1, h2] at hrel
        have hcore : UnitInfo.coreEq ui1 ui2 := hrel
        cases hpv1 : process_value st value ui1 ig with
        | error er =>
          have hpv2 : process_value st value ui2 ig = .error er := by
            rw [← process_value_coreEq st value ig ui1 ui2 hcore]
            exact hpv1
          rw [assignE_pv_error pu1 st value error unit name longname vu eu ig
            ui1 er h1 hpv1,
            assignE_pv_error pu2 st value error unit name longname vu eu ig
            ui2 er h2 hpv2]
        | ok pv =>
          have hpv2 : process_value st value ui2 ig = .ok pv := by
            rw [← process_value_coreEq st value ig ui1 ui2 hcore]
            exact hpv1
          cases hpe1 : process_error st error pv.1 pv.2.1 ui1 ig with
          | error er =>
            have hpe2 : process_error st error pv.1 pv.2.1 ui2 ig
                = .error er := by
              rw [← process_error_coreEq st error pv.1 pv.2.1 ig ui1 ui2
                hcore.2.2.2.1]
              exact hpe1
            rw [assignE_pe_error pu1 st value error unit name longname vu eu
              ig ui1 pv er h1 hpv1 hpe1,
              assignE_pe_error pu2 st value error unit name longname vu eu
              ig ui2 pv er h2 hpv2 hpe2]
          | ok pe =>
            have hpe2 : process_error st error pv.1 pv.2.1 ui2 ig
                = .ok pe := by
              rw [← process_error_coreEq st error pv.1 pv.2.1 ig ui1 ui2
                hcore.2.2.2.1]
              exact hpe1
            rw [assignE_eq pu1 st value error unit name longname vu eu ig
              ui1 pv pe h1 hpv1 hpe1,
              assignE_eq pu2 st value error unit name longname vu eu ig
              ui2 pv pe h2 hpv2 hpe2]
            rfl

/-- Witness for C8 at concrete inputs: with only an error unit given,
prefer_unit is the canonical error unit; and two resolvers that agree on
the factor and dimension of km but canonicalise it differently give the
same stored value and error. -/
theorem claim_C8_witness :
    parse_units puTriv none none (some "s")
      = .ok ⟨1, Dimension.one, none, 1, Dimension.one, some "s"⟩
    ∧ (assign puTriv [] (AssignValue.num (NDArray.scalar 1)) none none none
        none none (some "s") false).1
      = .ok ⟨"dummy", none, some (NDArray.smul 1 (NDArray.scalar 1)),
             FormulaVal.none, none, FormulaVal.none, Dimension.one, some "s"⟩
    ∧ (⟨"dummy", none, some (NDArray.smul 1 (NDArray.scalar 1)),
        FormulaVal.none, none, FormulaVal.none, Dimension.one,
        some "s"⟩ : Quantity).prefer_unit = some "s"
    ∧ (puKm "km").1 = (puKmAlias "km").1
    ∧ (puKm "km").2.1 = (puKmAlias "km").2.1
    ∧ (puKm "km").2.2 ≠ (puKmAlias "km").2.2
    ∧ (assign puKm stX (AssignValue.num (NDArray.scalar 2))
        (some (NDArray.scalar 1)) (some "km") none none none none false).1.map
        (fun q => (q.value, q.error))
      = (assign puKmAlias stX (AssignValue.num (NDArray.scalar 2))
        (some (NDArray.scalar 1)) (some "km") none none none none false).1.map
        (fun q => (q.value, q.error)) := by
  have hagree : ∀ u, (puKm u).1 = (puKmAlias u).1
      ∧ (puKm u).2.1 = (puKmAlias u).2.1 := by
    intro u
    by_cases hu : u = "km" <;> simp [puKm, puKmAlias, hu]
  refine ⟨rfl, rfl, ?_, by decide, by decide, by decide, ?_⟩
  · exact claim_C8_prefer_unit_metadata.1 puTriv []
      (AssignValue.num (NDArray.scalar 1)) none none none none none
      (some "s") false ⟨1, Dimension.one, none, 1, Dimension.one, some "s"⟩
      ⟨"dummy", none, some (NDArray.smul 1 (NDArray.scalar 1)),
       FormulaVal.none, none, FormulaVal.none, Dimension.one, some "s"⟩
      rfl rfl
  · exact claim_C8_prefer_unit_metadata.2 puKm puKmAlias hagree stX
      (AssignValue.num (NDArray.scalar 2)) (some (NDArray.scalar 1))
      (some "km") none none none none false

theorem applySolvedDims_get (solved : List (String × Dimension)) :
    ∀ (fs : List Nat) (st st2 : Store), fs.Nodup →
      applySolvedDims st fs solved = .ok st2 →
      (∀ i, i ∉ fs → st2.get? i = st.get? i)
      ∧ (∀ i q, i ∈ fs → st.get? i = some q →
          ∃ d, solved.lookup q.name = some d ∧
            st2.get? i = some (if q.dim = d then q
              else { q with dim := d, prefer_unit := none })) := by
  intro fs
  induction fs with
  | nil =>
    intro st st2 _ h
    cases h
    exact ⟨fun i _ => rfl, fun i q hi _ => absurd hi (List.not_mem_nil i)⟩
  | cons i0 rest ih =>
    intro st st2 hnd h
    have hnd2 : rest.Nodup := (List.nodup_cons.mp hnd).2
    have hi0nr : i0 ∉ rest := (List.nodup_cons.mp hnd).1
    simp only [applySolvedDims] at h
    cases hq0 : st.get? i0 with
    | none =>
      simp only [hq0] at h
      obtain ⟨hfr, hmem⟩ := ih st st2 hnd2 h
      constructor
      · intro i hi
        exact hfr i (fun hir => hi (List.mem_cons_of_mem i0 hir))
      · intro i q hi hq
        rcases List.mem_cons.mp hi with heq | hir
        · subst heq
          rw [hq] at hq0
          cases hq0
        · exact hmem i q hir hq
    | some q0 =>
      simp only [hq0] at h
      cases hl : solved.lookup q0.name with
      | none => simp only [hl] at h; cases h
      | some d0 =>
        simp only [hl] at h
        by_cases hd : q0.dim = d0
        · rw [if_pos hd] at h
          obtain ⟨hfr, hmem⟩ := ih st st2 hnd2 h
          constructor
          · intro i hi
            exact hfr i (fun hir => hi (List.mem_cons_of_mem i0 hir))
          · intro i q hi hq
            rcases List.mem_cons.mp hi with heq | hir
            · subst heq
              rw [hq0] at hq
              injection hq with hq
              subst hq
              exact ⟨d0, hl, by rw [hfr i hi0nr, hq0, if_pos hd]⟩
            · exact hmem i q hir hq
        · rw [if_neg hd] at h
          obtain ⟨hfr, hmem⟩ := ih _ st2 hnd2 h
          have hlt : i0 < st.length := by
            rcases List.get?_eq_some.mp hq0 with ⟨hl2, _⟩
            exact hl2
          constructor
          · intro i hi
            have hne : i ≠ i0 := fun he => hi (he ▸ List.mem_cons_self i0 rest)
            have hrest : i ∉ rest := fun hir => hi (List.mem_cons_of_mem i0 hir)
            rw [hfr i hrest]
            rw [List.get?_eq_getElem?, List.getElem?_set_ne (Ne.symm hne),
              ← List.get?_eq_getElem?]
          · intro i q hi hq
            rcases List.mem_cons.mp hi with heq | hir
            · subst heq
              rw [hq0] at hq
              injection hq with hq
              subst hq
              refine ⟨d0, hl, ?_⟩
              rw [hfr i hi0nr, if_neg hd]
              rw [List.get?_eq_getElem?]
              simp [List.getElem?_set_self, hlt]
            · have hne : i ≠ i0 := fun he => hi0nr (he ▸ hir)
              refine hmem i q hir ?_
              rw [List.get?_eq_getElem?, List.getElem?_set_ne (Ne.symm hne),
                ← List.get?_eq_getElem?]
              exact hq

/-- C5: when dimension checking is enabled and the fit function
dimension does not match the ydata dimension, the dimension solver is
invoked exactly once (the invocation counter of the instrumented stage
is one on every path through the branch, also when the solve or the
write-back fails); on success, every free symbol of the function whose
solved dimension differs from its current one is assigned the solved
dimension with prefer_unit cleared while equal-dimension and unrelated
quantities are untouched; and the stage only succeeds when the
recomputed function dimension equals the ydata dimension, so a failure
after the one-shot solve is surfaced with no default dimension
assumed. -/
theorem claim_C5_fit_one_shot_solver (solver : DimSolver) (st : Store)
    (func : Expr) (ydim : Dimension) (params : List Nat)
    (hmism : (get_dimension st func).toOption ≠ some ydim) :
    (fit_dim_check solver st func ydim params false).2 = 1
    ∧ (∀ st2, (fit_dim_check solver st func ydim params false).1 = .ok st2 →
        get_dimension st2 func = .ok ydim
        ∧ (∀ i, i ∉ func.freeSymbols → st2.get? i = st.get? i)
        ∧ (∀ solved,
            solver func ydim (buildKnownDims st func.freeSymbols params)
              = .ok solved →
            ∀ i q, i ∈ func.freeSymbols → st.get? i = some q →
              ∃ d, solved.lookup q.name = some d ∧
                st2.get? i = some (if q.dim = d then q
                  else { q with dim := d, prefer_unit := none }))) := by
  have hbody : fit_dim_check solver st func ydim params false
      = (match solver func ydim (buildKnownDims st func.freeSymbols params)
          with
        | .error e => (.error e, 1)
        | .ok solved =>
          match applySolvedDims st func.freeSymbols solved with
          | .error e => (.error e, 1)
          | .ok st2 =>
            match get_dimension st2 func with
            | .error e => (.error e, 1)
            | .ok fd2 =>
              if fd2 = ydim then (.ok st2, 1)
              else (.error .fitParamsUnsolved, 1)) := by
    simp only [fit_dim_check, Bool.false_eq_true, if_false, if_neg hmism]
  cases hs : solver func ydim (buildKnownDims st func.freeSymbols params) with
  | error e =>
    have hres : fit_dim_check solver st func ydim params false
        = (.error e, 1) := by
      rw [hbody]
      simp only [hs]
    exact ⟨by rw [hres], fun st2 h => by rw [hres] at h; cases h⟩
  | ok solved =>
    cases ha : applySolvedDims st func.freeSymbols solved with
    | error e =>
      have hres : fit_dim_check solver st func ydim params false
          = (.error e, 1) := by
        rw [hbody]
        simp only [hs, ha]
      exact ⟨by rw [hres], fun st2 h => by rw [hres] at h; cases h⟩
    | ok st2a =>
      cases hd : get_dimension st2a func with
      | error e =>
        have hres : fit_dim_check solver st func ydim params false
            = (.error e, 1) := by
          rw [hbody]
          simp only [hs, ha, hd]
        exact ⟨by rw [hres], fun st2 h => by rw [hres] at h; cases h⟩
      | ok fd2 =>
        by_cases hfd : fd2 = ydim
        · have hres : fit_dim_check solver st func ydim params false
              = (.ok st2a, 1) := by
            rw [hbody]
            simp only [hs, ha, hd]
            rw [if_pos hfd]
          refine ⟨by rw [hres], fun st2 h => ?_⟩
          rw [hres] at h
          have hst : st2a = st2 := by injection h
          subst hst
          obtain ⟨hfr, hmem⟩ := applySolvedDims_get solved func.freeSymbols
            st st2a (List.nodup_dedup _) ha
          refine ⟨hfd ▸ hd, hfr, fun solved2 hs2 i q hi hq => ?_⟩
          have hsol : solved2 = solved := by
            injection hs2 with h2
            exact h2.symm
          subst hsol
          exact hmem i q hi hq
        · have hres : fit_dim_check solver st func ydim params false
              = (.error .fitParamsUnsolved, 1) := by
            rw [hbody]
            simp only [hs, ha, hd]
            rw [if_neg hfd]
          exact ⟨by rw [hres], fun st2 h => by rw [hres] at h; cases h⟩

/-- Witness for C5 at a concrete input: a placeholder parameter k of
dimensionless dimension and preferred unit u, a fit function equal to k
and a ydata dimension of length; the solver runs once, k receives
dimension length with its preferred unit cleared, the unrelated
quantity v is untouched, and the recomputed function dimension matches. -/
theorem claim_C5_witness :
    (get_dimension stKV (Expr.qref 0)).toOption ≠ some dimLen
    ∧ (fit_dim_check solverKV stKV (Expr.qref 0) dimLen [0] false).2 = 1
    ∧ (fit_dim_check solverKV stKV (Expr.qref 0) dimLen [0] false).1
        = .ok [⟨"k", none, none, FormulaVal.none, none, FormulaVal.none,
                dimLen, none⟩, qV]
    ∧ get_dimension [⟨"k", none, none, FormulaVal.none, none,
        FormulaVal.none, dimLen, none⟩, qV] (Expr.qref 0) = .ok dimLen
    ∧ ([⟨"k", none, none, FormulaVal.none, none, FormulaVal.none,
        dimLen, none⟩, qV] : Store).get? 1 = stKV.get? 1 := by
  have hmism : (get_dimension stKV (Expr.qref 0)).toOption ≠ some dimLen := by
    decide
  have happ := claim_C5_fit_one_shot_solver solverKV stKV (Expr.qref 0)
    dimLen [0] hmism
  have hok : (fit_dim_check solverKV stKV (Expr.qref 0) dimLen [0] false).1
      = .ok [⟨"k", none, none, FormulaVal.none, none, FormulaVal.none,
              dimLen, none⟩, qV] := by
    rfl
  refine ⟨hmism, happ.1, hok, (happ.2 _ hok).1, (happ.2 _ hok).2.1 1 ?_⟩
  decide
